import Mathlib

/-!
Verification of the `udevrs` user-space udev client library (crate root
`src/lib.rs`), a Rust port of `libudev`.

The development is a shallow embedding: each Rust function relevant to the
claims is translated to an executable Lean definition over `Nat`
(machine integers are `Nat` with explicit `% 2^w` / saturation where the
Rust code wraps or saturates) and `List Nat` (byte strings; `&str` and
`String` values are modelled as their UTF-8 byte sequences, which agrees
with character-level indexing on the ASCII data used throughout).
Fallible Rust functions returning `Result` are modelled with `Except`;
recursion that is not structural in the Rust source (the trie walk)
takes an explicit fuel argument, with `none` meaning the fuel ran out.
-/

set_option maxRecDepth 10000

namespace Udevrs

/-- Error type mirroring `src/error.rs`: only the constructors and payloads the
claims discriminate on are kept; the descriptive message strings carried by the
Rust enum are dropped. -/
inductive UdevError where
  | invalidLen (len : Nat)
  | hwdb
  | monitor
  | io
deriving DecidableEq, Repr

/-! ## Machine-integer helpers -/

/-- Truncation to 32 bits, as performed by `as u32` casts. -/
def toU32 (n : Nat) : Nat := n % 2 ^ 32

/-- `u32::saturating_mul`: the product clamped to `u32::MAX`. -/
def satMul32 (a b : Nat) : Nat := min (a * b) (2 ^ 32 - 1)

/-- `u32::from_le_bytes` on four bytes. -/
def leU32 (b0 b1 b2 b3 : Nat) : Nat :=
  b0 + b1 * 2 ^ 8 + b2 * 2 ^ 16 + b3 * 2 ^ 24

/-- `u64::from_le_bytes` over a list of (at least) eight bytes, least
significant byte first.  Missing bytes read as zero; every call site in this
development passes exactly eight bytes. -/
def leU64 (bs : List Nat) : Nat :=
  (bs.take 8).foldr (fun b acc => b + acc * 2 ^ 8) 0

/-- Little-endian byte encoding of a 64-bit value, 8 bytes. -/
def le64Bytes (n : Nat) : List Nat :=
  [n % 2 ^ 8, n / 2 ^ 8 % 2 ^ 8, n / 2 ^ 16 % 2 ^ 8, n / 2 ^ 24 % 2 ^ 8,
   n / 2 ^ 32 % 2 ^ 8, n / 2 ^ 40 % 2 ^ 8, n / 2 ^ 48 % 2 ^ 8, n / 2 ^ 56 % 2 ^ 8]

/-- `u32::to_be` on a little-endian host: the byte-swapped value.  All
supported targets of the crate (`cfg(target_os = "linux")`, x86-64/aarch64)
are little-endian, so `to_be` is `swap_bytes`. -/
def byteSwap32 (x : Nat) : Nat :=
  (x % 2 ^ 8) * 2 ^ 24 + (x / 2 ^ 8 % 2 ^ 8) * 2 ^ 16 +
  (x / 2 ^ 16 % 2 ^ 8) * 2 ^ 8 + (x / 2 ^ 24 % 2 ^ 8)

/-! ## `src/murmur_hash.rs` -/

/-- The mixing constant `M` of `murmur_hash2`. -/
def murmurM : Nat := 0x5bd1e995

/-- The 4-byte chunks visited by `key.chunks_exact(4)`: maximal run of
complete 4-byte groups, any 1-3 byte remainder is left to the tail code. -/
def chunks4 : List Nat → List (Nat × Nat × Nat × Nat)
  | b0 :: b1 :: b2 :: b3 :: rest => (b0, b1, b2, b3) :: chunks4 rest
  | _ => []

/-- One iteration of the 4-byte mixing loop of `murmur_hash2`
(src/murmur_hash.rs lines 26-35).  `u32::from_ne_bytes` is a little-endian
load on the supported targets.  Note the source uses `saturating_mul`, not
wrapping multiplication. -/
def murmurMixChunk (h : Nat) (c : Nat × Nat × Nat × Nat) : Nat :=
  let k := leU32 c.1 c.2.1 c.2.2.1 c.2.2.2
  let k := satMul32 k murmurM
  let k := k ^^^ (k >>> 24)
  let k := satMul32 k murmurM
  let h := satMul32 h murmurM
  h ^^^ k

/-- `murmur_hash2` from `src/murmur_hash.rs`, translated statement by
statement.  The tail bytes are `key[len-1]`, `key[len-2]`, `key[len-3]`,
addressed here through `key.drop (len - len % 4)` (so `tail.getD 2 0` is
`key[len-1]` when `len % 4 == 3`, and so on).  The final
`h = h.saturating_mul(M)` is unconditional in the source, and all
multiplications saturate rather than wrap. -/
def murmur_hash2 (key : List Nat) (seed : Nat) : Nat :=
  let h := seed ^^^ toU32 key.length
  let h := (chunks4 key).foldl murmurMixChunk h
  let modLen := key.length % 4
  let tail := key.drop (key.length - modLen)
  let h :=
    if modLen == 3 then
      ((h ^^^ (tail.getD 2 0 <<< 16)) ^^^ (tail.getD 1 0 <<< 8)) ^^^ tail.getD 0 0
    else if modLen == 2 then
      (h ^^^ (tail.getD 1 0 <<< 8)) ^^^ tail.getD 0 0
    else if modLen == 1 then
      h ^^^ tail.getD 0 0
    else h
  let h := satMul32 h murmurM
  let h := h ^^^ (h >>> 13)
  let h := satMul32 h murmurM
  h ^^^ (h >>> 15)

/-- `string_hash32` from `src/util.rs`: murmur2 of the UTF-8 bytes with
seed 0. -/
def string_hash32 (s : List Nat) : Nat := murmur_hash2 s 0

/-- `string_bloom64` from `src/util.rs`: four 6-bit slices of the 32-bit
hash each set one bit of a 64-bit set (`hash & 63` is `hash % 64`). -/
def string_bloom64 (s : List Nat) : Nat :=
  let hash := string_hash32 s
  (1 <<< (hash % 64)) ||| (1 <<< ((hash >>> 6) % 64)) |||
  (1 <<< ((hash >>> 12) % 64)) ||| (1 <<< ((hash >>> 18) % 64))

/-- Modelled from the spec: the reference MurmurHash2 function (Austin
Appleby), restated by the specification as little-endian 4-byte loads,
32-bit modular (wrapping) multiplication by `0x5bd1e995`, the standard tail
handling (`h *= m` only runs inside the `switch`, i.e. only when
`len % 4 != 0`) and the final `13/15` mixing steps.  This is the second
definition of a refinement claim: it follows the words of the spec and is
compared against `murmur_hash2`, which is translated from the source. -/
def murmurHash2Reference (key : List Nat) (seed : Nat) : Nat :=
  let wrapMix := fun (h : Nat) (c : Nat × Nat × Nat × Nat) =>
    let k := leU32 c.1 c.2.1 c.2.2.1 c.2.2.2
    let k := k * murmurM % 2 ^ 32
    let k := k ^^^ (k >>> 24)
    let k := k * murmurM % 2 ^ 32
    let h := h * murmurM % 2 ^ 32
    h ^^^ k
  let h := seed ^^^ toU32 key.length
  let h := (chunks4 key).foldl wrapMix h
  let modLen := key.length % 4
  let tail := key.drop (key.length - modLen)
  let h :=
    if modLen == 3 then
      (((h ^^^ (tail.getD 2 0 <<< 16)) ^^^ (tail.getD 1 0 <<< 8)) ^^^ tail.getD 0 0)
        * murmurM % 2 ^ 32
    else if modLen == 2 then
      ((h ^^^ (tail.getD 1 0 <<< 8)) ^^^ tail.getD 0 0) * murmurM % 2 ^ 32
    else if modLen == 1 then
      (h ^^^ tail.getD 0 0) * murmurM % 2 ^ 32
    else h
  let h := h ^^^ (h >>> 13)
  let h := h * murmurM % 2 ^ 32
  h ^^^ (h >>> 15)

/-! ## `src/monitor.rs`: magic constant, netlink header, BPF synthesis -/

/-- `UDEV_MONITOR_MAGIC` from `src/monitor.rs` line 10:
`u32::from_le_bytes([0xfe, 0xed, 0xca, 0xfe])`. -/
def UDEV_MONITOR_MAGIC : Nat := leU32 0xfe 0xed 0xca 0xfe

/-- The versioned netlink header (`UdevMonitorNetlinkHeader`), with the
8-byte prefix kept as bytes. -/
structure UdevMonitorNetlinkHeader where
  nlPrefix : List Nat
  magic : Nat
  header_size : Nat
  properties_off : Nat
  properties_len : Nat
  filter_subsystem_hash : Nat
  filter_devtype_hash : Nat
  filter_tag_bloom_hi : Nat
  filter_tag_bloom_lo : Nat
deriving DecidableEq, Repr

/-- `UdevMonitorNetlinkHeader::new`: the prefix literal is `libudev\0`, the
magic field is `UDEV_MONITOR_MAGIC.to_be()`, and `header_size` is
`size_of::<Self>() = 40`. -/
def UdevMonitorNetlinkHeader.new : UdevMonitorNetlinkHeader :=
  { nlPrefix := [108, 105, 98, 117, 100, 101, 118, 0]
    magic := byteSwap32 UDEV_MONITOR_MAGIC
    header_size := 40
    properties_off := 0
    properties_len := 0
    filter_subsystem_hash := 0
    filter_devtype_hash := 0
    filter_tag_bloom_hi := 0
    filter_tag_bloom_lo := 0 }

/-! ## `src/list.rs`: entries and entry lists -/

/-- `UdevEntry`: a (name, value, num) triple; strings are byte lists. -/
structure UdevEntry where
  name : List Nat
  value : List Nat
  num : Int
deriving DecidableEq, Repr

/-- `UdevList::entry_by_name`: first entry with the given name. -/
def entry_by_name (l : List UdevEntry) (name : List Nat) : Option UdevEntry :=
  l.find? (fun e => e.name == name)

/-- The in-place update performed by
`self.entry_by_name_mut(name).unwrap().set_value(value)`: the value of the
first entry carrying `name` is replaced, everything else is unchanged. -/
def set_first_value : List UdevEntry → List Nat → List Nat → List UdevEntry
  | [], _, _ => []
  | e :: rest, name, value =>
    if e.name == name then { e with value := value } :: rest
    else e :: set_first_value rest name value

/-- `UdevList::add_entry` (src/list.rs lines 127-141), acting on the
underlying entry list of a list with uniqueness flag `unique`: in unique
mode an existing name is updated in place, otherwise a fresh entry is
pushed to the back. -/
def add_entry (unique : Bool) (l : List UdevEntry) (name value : List Nat) :
    List UdevEntry :=
  if unique then
    if (entry_by_name l name).isSome then set_first_value l name value
    else l ++ [{ name := name, value := value, num := 0 }]
  else l ++ [{ name := name, value := value, num := 0 }]

/-- `UdevList::remove_entry` (src/list.rs lines 144-153): `split_off` at the
position of the first entry named `name`, drop that entry, and append the
rest back - i.e. remove the first occurrence of the name. -/
def remove_entry : List UdevEntry → List Nat → List UdevEntry
  | [], _ => []
  | e :: rest, name => if e.name == name then rest else e :: remove_entry rest name

/-- `UdevList::set_list`: the underlying list is replaced verbatim by the
caller-supplied list; no deduplication happens, whatever the uniqueness
flag says. -/
def set_list (_old new : List UdevEntry) : List UdevEntry := new

/-- One list operation of the claim: `add_entry`, `remove_entry`, `clear`
or `set_list`. -/
inductive ListOp where
  | add (name value : List Nat)
  | remove (name : List Nat)
  | clear
  | setList (l : List UdevEntry)
deriving DecidableEq, Repr

/-- Application of one list operation to the entry list of an `UdevList`
whose uniqueness flag is `unique`. -/
def applyListOp (unique : Bool) (st : List UdevEntry) : ListOp → List UdevEntry
  | .add n v => add_entry unique st n v
  | .remove n => remove_entry st n
  | .clear => []
  | .setList l => set_list st l

/-- A sequence of list operations, applied left to right. -/
def runListOps (unique : Bool) (st : List UdevEntry) (ops : List ListOp) :
    List UdevEntry :=
  ops.foldl (applyListOp unique) st

/-- No two entries of the list share a name. -/
def uniqueNames (l : List UdevEntry) : Prop := (l.map UdevEntry.name).Nodup

instance (l : List UdevEntry) : Decidable (uniqueNames l) := by
  unfold uniqueNames; infer_instance

/-- Discriminator for the `set_list` operation. -/
def ListOp.isSetList : ListOp → Bool
  | .setList _ => true
  | _ => false

/-- True when a sequence of operations contains no `set_list`. -/
def noSetList (ops : List ListOp) : Bool :=
  ops.all fun op => !op.isSetList

/-- `UdevList::has_tag` (src/list.rs lines 171-180): the monitor-side tag
filter.  `device` is represented by its tags list.  An empty filter list
accepts; otherwise the device is accepted when the count of filter entries
whose name is among the device tags is non-zero. -/
def udevlist_has_tag (filterList : List UdevEntry) (devTags : List UdevEntry) :
    Bool :=
  if filterList.isEmpty then true
  else
    (filterList.filter fun e => (entry_by_name devTags e.name).isSome).length != 0

/-! ## `src/enumerate.rs`: matchers -/

/-- `UdevEnumerate::match_subsystem` (src/enumerate.rs lines 632-643).
The filter lists hold the match names in their entry names. -/
def match_subsystem (subsystem_nomatch_list subsystem_match_list : List UdevEntry)
    (subsystem : List Nat) : Bool :=
  !subsystem.isEmpty
    && !(subsystem_nomatch_list.any fun f => f.name == subsystem)
    && (subsystem_match_list.isEmpty
        || subsystem_match_list.any fun f => f.name == subsystem)

/-- `UdevDevice::has_tag` for a device whose database info is loaded: the
tag is looked up in the device tags list by name. -/
def device_has_tag (devTags : List UdevEntry) (tag : List Nat) : Bool :=
  (entry_by_name devTags tag).isSome

/-- `UdevEnumerate::match_tag` (src/enumerate.rs lines 658-664): the
enumerator accepts when the match list is empty or no entry of the match
list is missing from the device tags. -/
def match_tag (tags_match_list : List UdevEntry) (devTags : List UdevEntry) :
    Bool :=
  tags_match_list.isEmpty
    || (tags_match_list.filter fun f => !device_has_tag devTags f.name).length == 0

/-! ## BPF synthesis (`UdevMonitor::filter_update`) -/

/-- One classic BPF instruction (`libc::sock_filter`). -/
structure SockFilter where
  code : Nat
  jt : Nat
  jf : Nat
  k : Nat
deriving DecidableEq, Repr

/-- `BPF_LD | BPF_W | BPF_ABS`: load a 32-bit word at an absolute offset. -/
def BPF_LD_W_ABS : Nat := 0x20
/-- `BPF_JMP | BPF_JEQ | BPF_K`: conditional jump on equality with `k`. -/
def BPF_JMP_JEQ_K : Nat := 0x15
/-- `BPF_ALU | BPF_AND | BPF_K`: bitwise and of the accumulator with `k`. -/
def BPF_ALU_AND_K : Nat := 0x54
/-- `BPF_RET | BPF_K`: return the constant `k`. -/
def BPF_RET_K : Nat := 0x06

/-- `BPF_FILTER_LEN`: capacity of the instruction array. -/
def BPF_FILTER_LEN : Nat := 512

/-- `BpfFilters::bpf_stmt`: writes instruction `{code, k}` at the running
index and advances it.  The 512-slot array written left to right from index
0 is modelled as the list of instructions emitted so far. -/
def bpf_stmt (ins : List SockFilter) (code k : Nat) :
    Except UdevError (List SockFilter) :=
  if ins.length < BPF_FILTER_LEN then
    .ok (ins ++ [{ code := code, jt := 0, jf := 0, k := k }])
  else .error .monitor

/-- `BpfFilters::bpf_jmp`: like `bpf_stmt` with explicit jump offsets. -/
def bpf_jmp (ins : List SockFilter) (code k jt jf : Nat) :
    Except UdevError (List SockFilter) :=
  if ins.length < BPF_FILTER_LEN then
    .ok (ins ++ [{ code := code, jt := jt, jf := jf, k := k }])
  else .error .monitor

/-- The tag loop of `filter_update` (src/monitor.rs lines 509-562).
`tag_matches` starts at the tag list length and is decremented before the
low-word jump is emitted; its jump target is truncated by the `as u8` cast.
The and-instruction for the high word passes
`UdevMonitorNetlinkHeader::filter_tag_bloom_hi_offset()` (= 32) as the
constant, exactly as the source does. -/
def filterUpdateTagLoop : List (List Nat) → Nat → List SockFilter →
    Except UdevError (List SockFilter)
  | [], _, ins => .ok ins
  | t :: rest, tag_matches, ins => do
    let tag_bloom_bits := string_bloom64 t
    let tag_bloom_hi := tag_bloom_bits >>> 32
    let tag_bloom_lo := tag_bloom_bits % 2 ^ 32
    let ins ← bpf_stmt ins BPF_LD_W_ABS 32
    let ins ← bpf_stmt ins BPF_ALU_AND_K 32
    let ins ← bpf_jmp ins BPF_JMP_JEQ_K tag_bloom_hi 0 3
    let ins ← bpf_stmt ins BPF_LD_W_ABS 36
    let ins ← bpf_stmt ins BPF_ALU_AND_K tag_bloom_lo
    let tm := tag_matches - 1
    let ins ← bpf_jmp ins BPF_JMP_JEQ_K tag_bloom_lo ((1 + tm * 6) % 2 ^ 8) 0
    filterUpdateTagLoop rest tm ins

/-- The subsystem/devtype loop of `filter_update` (src/monitor.rs lines
566-619).  Each filter entry carries the subsystem in its name and the
optional devtype in its value. -/
def filterUpdateSubsystemLoop : List UdevEntry → List SockFilter →
    Except UdevError (List SockFilter)
  | [], ins => .ok ins
  | e :: rest, ins => do
    let hash := string_hash32 e.name
    let ins ← bpf_stmt ins BPF_LD_W_ABS 24
    let ins ←
      if e.value.isEmpty then
        bpf_jmp ins BPF_JMP_JEQ_K hash 0 1
      else do
        let ins ← bpf_jmp ins BPF_JMP_JEQ_K hash 0 3
        let ins ← bpf_stmt ins BPF_LD_W_ABS 28
        let hash := string_hash32 e.value
        bpf_jmp ins BPF_JMP_JEQ_K hash 0 1
    let ins ← bpf_stmt ins BPF_RET_K 0xffffffff
    filterUpdateSubsystemLoop rest ins

/-- `UdevMonitor::filter_update` (src/monitor.rs lines 486-652), up to the
point where the program is installed with `SO_ATTACH_FILTER`: the function
returns the synthesized instruction list, `none` when both filter lists are
empty and the early `Ok(())` leaves no program installed. -/
def filter_update (filter_subsystem_list : List UdevEntry)
    (filter_tag_list : List (List Nat)) :
    Except UdevError (Option (List SockFilter)) :=
  if filter_subsystem_list.isEmpty && filter_tag_list.isEmpty then .ok none
  else do
    let ins : List SockFilter := []
    let ins ← bpf_stmt ins BPF_LD_W_ABS 8
    let ins ← bpf_jmp ins BPF_JMP_JEQ_K UDEV_MONITOR_MAGIC 1 0
    let ins ← bpf_stmt ins BPF_RET_K 0xffffffff
    let ins ←
      if !filter_tag_list.isEmpty then do
        let ins ← filterUpdateTagLoop filter_tag_list filter_tag_list.length ins
        bpf_stmt ins BPF_RET_K 0
      else pure ins
    let ins ←
      if !filter_subsystem_list.isEmpty then do
        let ins ← filterUpdateSubsystemLoop filter_subsystem_list ins
        bpf_stmt ins BPF_RET_K 0
      else pure ins
    let ins ← bpf_stmt ins BPF_RET_K 0xffffffff
    .ok (some ins)

/-- Helper extracting the synthesized program from the result of
`filter_update` (empty program when no program was produced). -/
def filterProgram (r : Except UdevError (Option (List SockFilter))) :
    List SockFilter :=
  match r with
  | .ok (some p) => p
  | _ => []

/-! ## `src/device.rs`: stable ID construction -/

/-- `util::major` (src/util.rs): `(((dev >> 31 >> 1) & 0xfffff000) |
((dev >> 8) & 0x00000fff)) as u16`. -/
def util_major (dev : Nat) : Nat :=
  (((dev >>> 32) &&& 0xfffff000) ||| ((dev >>> 8) &&& 0x00000fff)) % 2 ^ 16

/-- `util::minor` (src/util.rs): `(((dev >> 12) & 0xffffff00) |
(dev & 0x000000ff)) as u16`. -/
def util_minor (dev : Nat) : Nat :=
  (((dev >>> 12) &&& 0xffffff00) ||| (dev &&& 0x000000ff)) % 2 ^ 16

/-- Decimal digits of a natural number, as ASCII bytes (the rendering of
`format!` for unsigned integers).  Fuel-based so the definition reduces; 32
digits cover every 64-bit value. -/
def natDecAux : Nat → Nat → List Nat
  | 0, _ => []
  | fuel + 1, n => if n < 10 then [48 + n] else natDecAux fuel (n / 10) ++ [48 + n % 10]

/-- ASCII decimal rendering of a natural number. -/
def natDec (n : Nat) : List Nat := natDecAux 32 n

/-- The fields of `UdevDevice` that participate in `get_id_filename`.  The
lazy sysfs read-throughs (`get_subsystem`, `get_devnum`, `get_ifindex`) are
I/O; the device is modelled in the state where its uevent info and
subsystem are already loaded, so each getter returns the stored field. -/
structure UdevDevice where
  devpath : List Nat
  subsystem : List Nat
  devnum : Nat
  ifindex : Int
  id_filename : List Nat
deriving DecidableEq, Repr

/-- `str::rsplit(sep).next()`: the (possibly empty) suffix after the last
occurrence of the separator; always `some`. -/
def rsplitNext (s : List Nat) (sep : Nat) : Option (List Nat) :=
  some ((s.reverse.takeWhile (fun c => c != sep)).reverse)

/-- The `if self.id_filename.is_empty()` block of
`UdevDevice::get_id_filename` (src/device.rs lines 846-877): the stable ID
derived from subsystem, devnum, ifindex and the devpath basename
(`b<maj>:<min>` or `c<maj>:<min>`, `n<ifindex>`, or
`+<subsystem>:<basename>`). -/
def compute_id_filename (d : UdevDevice) : List Nat :=
  if d.subsystem.isEmpty then []
  else if util_major d.devnum > 0 then
    (if d.subsystem == [98, 108, 111, 99, 107] then [98] else [99])
      ++ natDec (util_major d.devnum) ++ [58] ++ natDec (util_minor d.devnum)
  else if d.ifindex > 0 then
    [110] ++ natDec d.ifindex.toNat
  else
    match rsplitNext d.devpath 47 with
    | some sysname => [43] ++ d.subsystem ++ [58] ++ sysname
    | none => []

/-- `UdevDevice::get_id_filename` (src/device.rs lines 840-886), returning
the result string together with the updated device.  When the stored
`id_filename` is non-empty the whole computation is skipped and the local
`id_filename` stays empty, so the function returns the empty string and
leaves the device unchanged; only a freshly computed non-empty ID is
stored and returned. -/
def get_id_filename (d : UdevDevice) : List Nat × UdevDevice :=
  let idf := if d.id_filename.isEmpty then compute_id_filename d else []
  if idf.isEmpty then ([], d)
  else (idf, { d with id_filename := idf })

/-! ## `src/hwdb/trie`: on-disk structures -/

/-- `TrieNode` (src/hwdb/trie/node.rs): packed 24-byte node record. -/
structure TrieNode where
  prefix_off : Nat
  children_count : Nat
  values_count : Nat
deriving DecidableEq, Repr

/-- `TrieNode::try_from(&[u8])` (src/hwdb/trie/node.rs lines 85-121): a
buffer shorter than 24 bytes is `InvalidLen(len)`; a decoded `values_count`
above 64 is `InvalidLen(values_count)`. -/
def trieNodeTryFrom (val : List Nat) : Except UdevError TrieNode :=
  if val.length < 24 then .error (.invalidLen val.length)
  else
    let prefix_off := leU64 (val.take 8)
    let children_count := val.getD 8 0
    let values_count := leU64 ((val.drop 16).take 8)
    if values_count > 64 then .error (.invalidLen values_count)
    else .ok { prefix_off := prefix_off, children_count := children_count,
               values_count := values_count }

/-- `TrieChildEntry` (src/hwdb/trie/child_entry.rs): child label and
absolute offset of the child node. -/
structure TrieChildEntry where
  c : Nat
  child_off : Nat
deriving DecidableEq, Repr

/-- `TrieChildEntry::try_from(&[u8])`: 16-byte minimum, label byte then
7 padding bytes then the 64-bit offset. -/
def trieChildEntryTryFrom (val : List Nat) : Except UdevError TrieChildEntry :=
  if val.length < 16 then .error (.invalidLen val.length)
  else .ok { c := val.getD 0 0, child_off := leU64 ((val.drop 8).take 8) }

/-- `TrieValueEntry` (src/hwdb/trie/value_entry.rs): key and value string
offsets. -/
structure TrieValueEntry where
  key_off : Nat
  value_off : Nat
deriving DecidableEq, Repr

/-- The entry sizes recorded from the `TrieHeader` (the crate keeps them in
process-wide atomics `NODE_SIZE`, `CHILD_ENTRY_SIZE`, `VALUE_ENTRY_SIZE`;
they are threaded explicitly here). -/
structure TrieSizes where
  node_size : Nat
  child_entry_size : Nat
  value_entry_size : Nat
deriving DecidableEq, Repr

/-- `TrieValueEntry::try_from(&[u8])`: rejects buffers shorter than the
header-declared value entry size, then reads two 64-bit offsets. -/
def trieValueEntryTryFrom (szs : TrieSizes) (val : List Nat) :
    Except UdevError TrieValueEntry :=
  if val.length < szs.value_entry_size then .error (.invalidLen val.length)
  else .ok { key_off := leU64 (val.take 8), value_off := leU64 ((val.drop 8).take 8) }

/-- A decoded node with its children and values (`TrieEntry`). -/
structure TrieEntry where
  node : TrieNode
  children : List TrieChildEntry
  values : List TrieValueEntry
deriving DecidableEq, Repr

/-- Stable insertion of a child into a list sorted by label, keeping
existing entries with the same label in front (the behavior of the stable
`Vec::sort` with an `Ord` comparing only `c`). -/
def insertChildSorted (x : TrieChildEntry) : List TrieChildEntry →
    List TrieChildEntry
  | [] => [x]
  | y :: ys => if y.c ≤ x.c then y :: insertChildSorted x ys else x :: y :: ys

/-- `children.sort()` in `TrieEntry::try_from`: stable sort by label. -/
def sortChildren (l : List TrieChildEntry) : List TrieChildEntry :=
  l.foldl (fun acc x => insertChildSorted x acc) []

/-- The child-decoding loop of `TrieEntry::try_from`: `chunks_exact` over
the region after the node, one `TrieChildEntry::try_from` per chunk, with
the first failure propagated. -/
def decodeChildren (szs : TrieSizes) : Nat → List Nat →
    Except UdevError (List TrieChildEntry)
  | 0, _ => .ok []
  | count + 1, bytes =>
    if bytes.length < szs.child_entry_size then .ok []
    else do
      let c ← trieChildEntryTryFrom (bytes.take szs.child_entry_size)
      let rest ← decodeChildren szs count (bytes.drop szs.child_entry_size)
      .ok (c :: rest)

/-- The value-decoding loop of `TrieEntry::try_from`. -/
def decodeValues (szs : TrieSizes) : Nat → List Nat →
    Except UdevError (List TrieValueEntry)
  | 0, _ => .ok []
  | count + 1, bytes =>
    if bytes.length < szs.value_entry_size then .ok []
    else do
      let v ← trieValueEntryTryFrom szs (bytes.take szs.value_entry_size)
      let rest ← decodeValues szs count (bytes.drop szs.value_entry_size)
      .ok (v :: rest)

/-- `TrieEntry::try_from(&[u8])` (src/hwdb/trie/entry.rs lines 90-132):
decode the node, then `children_count` child entries (skipped entirely when
the declared region does not fit in the buffer), sort them by label, then
`values_count` value entries (same guard).  Offsets advance by the
header-declared sizes. -/
def trieEntryTryFrom (szs : TrieSizes) (val : List Nat) :
    Except UdevError TrieEntry := do
  let node ← trieNodeTryFrom val
  let idx := szs.node_size
  let child_end := idx + node.children_count * szs.child_entry_size
  let childrenRaw ←
    if idx ≤ child_end && child_end < val.length && node.children_count > 0 then
      decodeChildren szs node.children_count (val.drop idx)
    else .ok []
  let idx := idx + childrenRaw.length * szs.child_entry_size
  let children := sortChildren childrenRaw
  let value_end := idx + node.values_count * szs.value_entry_size
  let values ←
    if idx ≤ value_end && value_end < val.length && node.values_count > 0 then
      decodeValues szs node.values_count (val.drop idx)
    else .ok []
  .ok { node := node, children := children, values := values }

/-- `TrieHeader` (src/hwdb/trie/header.rs): the 80-byte on-disk header. -/
structure TrieHeader where
  signature : List Nat
  tool_version : Nat
  file_size : Nat
  header_size : Nat
  node_size : Nat
  child_entry_size : Nat
  value_entry_size : Nat
  nodes_root_off : Nat
  nodes_len : Nat
  strings_len : Nat
deriving DecidableEq, Repr

/-- The hwdb signature bytes `KSLPHHRH`. -/
def HWDB_SIG : List Nat := [75, 83, 76, 80, 72, 72, 82, 72]

/-- `TrieHeader::try_from(&[u8])` (src/hwdb/trie/header.rs lines 190-250):
length check, signature check, then nine little-endian 64-bit fields. -/
def trieHeaderTryFrom (val : List Nat) : Except UdevError TrieHeader :=
  if val.length < 80 then .error (.invalidLen val.length)
  else if val.take 8 != HWDB_SIG then .error .hwdb
  else
    .ok { signature := val.take 8
          tool_version := leU64 (val.drop 8)
          file_size := leU64 (val.drop 16)
          header_size := leU64 (val.drop 24)
          node_size := leU64 (val.drop 32)
          child_entry_size := leU64 (val.drop 40)
          value_entry_size := leU64 (val.drop 48)
          nodes_root_off := leU64 (val.drop 56)
          nodes_len := leU64 (val.drop 64)
          strings_len := leU64 (val.drop 72) }

/-- The per-byte UTF-8 validation state: `none` between sequences, or the
admissible range for the next byte plus the count of plain continuation
bytes after it. -/
def utf8Step : List Nat → Option (Nat × Nat × Nat) → Bool
  | [], st => st == none
  | b :: r, none =>
    if b < 0x80 then utf8Step r none
    else if 0xC2 ≤ b ∧ b ≤ 0xDF then utf8Step r (some (0x80, 0xBF, 0))
    else if b = 0xE0 then utf8Step r (some (0xA0, 0xBF, 1))
    else if (0xE1 ≤ b ∧ b ≤ 0xEC) ∨ b = 0xEE ∨ b = 0xEF then
      utf8Step r (some (0x80, 0xBF, 1))
    else if b = 0xED then utf8Step r (some (0x80, 0x9F, 1))
    else if b = 0xF0 then utf8Step r (some (0x90, 0xBF, 2))
    else if 0xF1 ≤ b ∧ b ≤ 0xF3 then utf8Step r (some (0x80, 0xBF, 2))
    else if b = 0xF4 then utf8Step r (some (0x80, 0x8F, 2))
    else false
  | b :: r, some (lo, hi, n) =>
    if lo ≤ b ∧ b ≤ hi then
      utf8Step r (if n == 0 then none else some (0x80, 0xBF, n - 1))
    else false

/-- `std::str::from_utf8` succeeds: the byte list is well-formed UTF-8. -/
def utf8Valid (bs : List Nat) : Bool := utf8Step bs none

/-- `trie_string` (src/hwdb/trie.rs lines 20-34): the bytes from `offset` to
the first NUL or LF (or the end of the buffer), required to be valid UTF-8;
an out-of-range offset or a decode failure is an `Error::UdevHwdb`. -/
def trie_string (buf : List Nat) (offset : Nat) : Except UdevError (List Nat) :=
  if offset < buf.length then
    let s := (buf.drop offset).takeWhile fun c => c != 0 && c != 10
    if utf8Valid s then .ok s else .error .hwdb
  else .error .hwdb

/-- `trie_string` as used from `LineBuf::trie_fnmatch`, where the call sites
consume the string directly (the crate resolves these calls against the
infallible string reader); failures read as the empty string.  On every
buffer appearing in the theorems below the two readers agree. -/
def trieStringD (buf : List Nat) (offset : Nat) : List Nat :=
  match trie_string buf offset with
  | .ok s => s
  | .error _ => []

/-! ## Glob matching (external `glob` crate)

The pattern matcher lives in the external `glob` crate, not in this
repository; the definitions below are modelled from the spec: `*` matches
any run, `?` one character, `[...]` a (possibly negated) character class,
following standard shell glob semantics. -/

/-- Modelled from the spec: parse the members of a character class after
the opening bracket (and after an optional negation), as (lo, hi) ranges;
a single character is the range (c, c).  Returns the members and the rest
of the pattern after the closing bracket, or `none` for an unterminated
class (which makes pattern compilation fail). -/
def classMembers : Nat → List Nat → Option (List (Nat × Nat) × List Nat)
  | 0, _ => none
  | _ + 1, [] => none
  | _ + 1, 93 :: rest => some ([], rest)
  | fuel + 1, c1 :: 45 :: c2 :: rest2 =>
    if c2 == 93 then
      (classMembers fuel (45 :: c2 :: rest2)).map fun pr =>
        ((c1, c1) :: pr.1, pr.2)
    else
      (classMembers fuel rest2).map fun pr => ((c1, c2) :: pr.1, pr.2)
  | fuel + 1, c1 :: rest =>
    (classMembers fuel rest).map fun pr => ((c1, c1) :: pr.1, pr.2)

/-- Modelled from the spec: parse a character class body (after `[`):
optional `!` negation, then the members. -/
def parseClass (p : List Nat) : Option (Bool × List (Nat × Nat) × List Nat) :=
  match p with
  | 33 :: rest => (classMembers (rest.length + 1) rest).map fun pr => (true, pr.1, pr.2)
  | _ => (classMembers (p.length + 1) p).map fun pr => (false, pr.1, pr.2)

/-- Modelled from the spec: `glob::Pattern::new` succeeds - every `[`
starts a well-formed character class. -/
def globValid : Nat → List Nat → Bool
  | 0, _ => false
  | _ + 1, [] => true
  | fuel + 1, 91 :: rest =>
    match parseClass rest with
    | some (_, _, r) => globValid fuel r
    | none => false
  | fuel + 1, _ :: rest => globValid fuel rest

/-- Modelled from the spec: `glob::Pattern::matches` - shell glob matching
of a pattern against a string, with fuel (strictly decreasing on every
step; the fuel passed at the call sites below dominates the recursion
depth, which is at most `pattern.length + string.length` per branch). -/
def globMatch : Nat → List Nat → List Nat → Bool
  | 0, _, _ => false
  | _ + 1, [], s => s.isEmpty
  | fuel + 1, 42 :: ps, s =>
    globMatch fuel ps s ||
      (match s with
       | [] => false
       | _ :: s2 => globMatch fuel (42 :: ps) s2)
  | fuel + 1, 63 :: ps, s =>
    (match s with
     | [] => false
     | _ :: s2 => globMatch fuel ps s2)
  | fuel + 1, 91 :: ps, s =>
    (match parseClass ps, s with
     | some (neg, ms, rest), c :: s2 =>
       (neg != ms.any fun m => m.1 ≤ c && c ≤ m.2) && globMatch fuel rest s2
     | _, _ => false)
  | fuel + 1, pc :: ps, s =>
    (match s with
     | c :: s2 => pc == c && globMatch fuel ps s2
     | [] => false)

/-- Fuel that dominates the recursion depth of `globMatch` for a pattern
and a string. -/
def globFuel (p s : List Nat) : Nat := (p.length + 2) * (s.length + 2)

/-! ## `src/hwdb/line.rs`: the line buffer and the fnmatch descent -/

/-- `LINE_MAX`: capacity of the `heapless` line buffer. -/
def LINE_MAX : Nat := 4096

/-- `LineBuf::add`: append bytes, failing (without partial effect) when the
result would exceed `LINE_MAX`. -/
def linebuf_add (lb val : List Nat) : Except UdevError (List Nat) :=
  if lb.length + val.length ≤ LINE_MAX then .ok (lb ++ val) else .error .hwdb

/-- `LineBuf::add_char`: append one byte, failing when full. -/
def linebuf_add_char (lb : List Nat) (c : Nat) : Except UdevError (List Nat) :=
  if lb.length + 1 ≤ LINE_MAX then .ok (lb ++ [c]) else .error .hwdb

/-- `LineBuf::remove`: drop `count` bytes from the end, clearing the buffer
when `count` is at least the current length. -/
def linebuf_remove (lb : List Nat) (count : Nat) : List Nat :=
  if lb.length ≤ count then [] else lb.take (lb.length - count)

/-- `UdevHwdb::_add_property` (src/hwdb.rs lines 239-251): keys opening
with an ASCII space are stripped of it and added to the properties list;
any other key is silently ignored.  The properties list is created by
`UdevList::new`, whose uniqueness flag is `false`, so additions append.
(`add_entry` never returns `None`, so the `ok_or` error path is dead.) -/
def add_property_hwdb (list : List UdevEntry) (key value : List Nat) :
    Except UdevError (List UdevEntry) :=
  match key with
  | 32 :: nkey => .ok (add_entry false list nkey value)
  | _ => .ok list

/-- Rust `binary_search_by` over the label-sorted children array: finds an
element with the given label when one exists (any one of equal labels; the
builder keeps labels distinct). -/
def binSearchChildren (cs : List TrieChildEntry) (c : Nat) :
    Option TrieChildEntry :=
  go (cs.length + 1) 0 cs.length
where
  go : Nat → Nat → Nat → Option TrieChildEntry
  | 0, _, _ => none
  | fuel + 1, lo, hi =>
    if lo < hi then
      let mid := (lo + hi) / 2
      let e := cs.getD mid { c := 0, child_off := 0 }
      if e.c < c then go fuel (mid + 1) hi
      else if c < e.c then go fuel lo mid
      else some e
    else none

/-- `TrieEntry::lookup_child` (src/hwdb/trie/entry.rs lines 64-81): binary
search for the label, then decode the child node at its offset when the
offset is in range; decode failures read as `none`. -/
def lookup_child (szs : TrieSizes) (entry : TrieEntry) (buf : List Nat)
    (c : Nat) : Option TrieEntry :=
  match binSearchChildren entry.children c with
  | none => none
  | some child =>
    if child.child_off < buf.length then
      (trieEntryTryFrom szs (buf.drop child.child_off)).toOption
    else none

/-- The value-emission loop inside `LineBuf::trie_fnmatch` (src/hwdb/line.rs
lines 115-121), with string reads defaulting as in `trieStringD`. -/
def emitValuesD (buf : List Nat) : List TrieValueEntry → List UdevEntry →
    Except UdevError (List UdevEntry)
  | [], list => .ok list
  | v :: rest, list => do
    let list ← add_property_hwdb list (trieStringD buf v.key_off)
      (trieStringD buf v.value_off)
    emitValuesD buf rest list

/-- `LineBuf::trie_fnmatch` (src/hwdb/line.rs lines 65-127): appends the
node remainder after position `p` to the glob buffer (under the odd
in-bounds condition of the source), descends into every child (pushing its
label), then tests the accumulated glob against the remaining search
string and copies the node values on a match; finally shrinks the buffer.
Fuel bounds the recursion depth; `none` means it ran out.  Returns the
restored line buffer and the output list. -/
def trie_fnmatch (szs : TrieSizes) (buf : List Nat) :
    Nat → List Nat → List UdevEntry → TrieEntry → Nat → List Nat →
    Option (Except UdevError (List Nat × List UdevEntry))
  | 0, _, _, _, _, _ => none
  | fuel + 1, lb, list, entry, p, search =>
    let pfx := trieStringD buf entry.node.prefix_off
    let pfxLen := pfx.length
    let endIdx :=
      match (pfx.drop p).findIdx? (fun c => c == 0) with
      | some q => q
      | none => pfxLen
    let lbE :=
      if p ≤ pfxLen ∧ pfxLen ≤ endIdx then
        linebuf_add lb ((pfx.take endIdx).drop p)
      else .ok lb
    match lbE with
    | .error e => some (.error e)
    | .ok lb =>
      let childStep :=
        fun (acc : Option (Except UdevError (List Nat × List UdevEntry)))
            (child : TrieChildEntry) =>
          match acc with
          | none => none
          | some (.error e) => some (.error e)
          | some (.ok (lb, list)) =>
            if child.child_off < buf.length then
              match linebuf_add_char lb child.c with
              | .error e => some (.error e)
              | .ok lb =>
                match trieEntryTryFrom szs (buf.drop child.child_off) with
                | .error e => some (.error e)
                | .ok centry =>
                  match trie_fnmatch szs buf fuel lb list centry 0 search with
                  | none => none
                  | some (.error e) => some (.error e)
                  | some (.ok (lb, list)) => some (.ok (linebuf_remove lb 1, list))
            else some (.ok (lb, list))
      match entry.children.foldl childStep (some (.ok (lb, list))) with
      | none => none
      | some (.error e) => some (.error e)
      | some (.ok (lb, list)) =>
        let pat := if utf8Valid lb then lb else []
        if globValid (pat.length + 1) pat then
          let listE :=
            if globMatch (globFuel pat search) pat search then
              emitValuesD buf entry.values list
            else .ok list
          match listE with
          | .error e => some (.error e)
          | .ok list => some (.ok (linebuf_remove lb (endIdx - p), list))
        else some (.error .io)

/-! ## `src/hwdb.rs`: the trie search -/

/-- Result of walking a node prefix character by character against the
search string (the `for (p, c) in ts.chars().enumerate()` loop of
`trie_search`). -/
inductive PrefixScan where
  | wildcard (p : Nat)
  | mismatch
  | matched
deriving DecidableEq, Repr

/-- The prefix loop of `trie_search` (src/hwdb.rs lines 308-316): stop at
the first glob metacharacter (returning its position), fail on the first
character that differs from `search[i + p]` (no character, as at the end
of the search string, differs from every prefix character), otherwise fall
through. -/
def scanPrefix (search : List Nat) (i : Nat) : List Nat → Nat → PrefixScan
  | [], _ => .matched
  | c :: rest, p =>
    if c == 42 || c == 63 || c == 91 then .wildcard p
    else if search.get? (i + p) != some c then .mismatch
    else scanPrefix search i rest (p + 1)

/-- The value-emission loop of `trie_search` (src/hwdb.rs lines 331-337),
with fallible string reads (`trie_string(..)?`). -/
def emitValues (buf : List Nat) : List TrieValueEntry → List UdevEntry →
    Except UdevError (List UdevEntry)
  | [], list => .ok list
  | v :: rest, list => do
    let key ← trie_string buf v.key_off
    let val ← trie_string buf v.value_off
    let list ← add_property_hwdb list key val
    emitValues buf rest list

/-- One wildcard descent of `trie_search` (src/hwdb.rs lines 321-328): if
the node has a child labelled `w`, push `w` on the line buffer, run the
fnmatch descent on the remaining search string, and pop. -/
def wildcardDescend (szs : TrieSizes) (buf : List Nat) (fnFuel : Nat)
    (n : TrieEntry) (search : List Nat) (i : Nat) (w : Nat)
    (lb : List Nat) (list : List UdevEntry) :
    Option (Except UdevError (List Nat × List UdevEntry)) :=
  match lookup_child szs n buf w with
  | none => some (.ok (lb, list))
  | some child =>
    match linebuf_add_char lb w with
    | .error e => some (.error e)
    | .ok lb =>
      match trie_fnmatch szs buf fnFuel lb list child 0 (search.drop i) with
      | none => none
      | some (.error e) => some (.error e)
      | some (.ok (lb, list)) => some (.ok (linebuf_remove lb 1, list))

/-- The `while let Some(n) = node` loop of `UdevHwdb::trie_search`
(src/hwdb.rs lines 303-343).  State: current node (`none` ends the loop
with success), position `i` in the search string, line buffer, and the
output properties list.  The outer `Option` is the loop fuel. -/
def trie_search_loop (szs : TrieSizes) (buf search : List Nat) (fnFuel : Nat) :
    Nat → Option TrieEntry → Nat → List Nat → List UdevEntry →
    Option (Except UdevError (List UdevEntry))
  | 0, _, _, _, _ => none
  | _ + 1, none, _, _, list => some (.ok list)
  | fuel + 1, some n, i, lb, list =>
    let afterPrefix : Sum (Option (Except UdevError (List UdevEntry))) Nat :=
      if n.node.prefix_off > 0 then
        match trie_string buf n.node.prefix_off with
        | .error e => .inl (some (.error e))
        | .ok ts =>
          match scanPrefix search i ts 0 with
          | .wildcard p =>
            .inl (match trie_fnmatch szs buf fnFuel lb list n p
                    (search.drop (i + p)) with
                  | none => none
                  | some (.error e) => some (.error e)
                  | some (.ok (_, list)) => some (.ok list))
          | .mismatch => .inl (some (.ok list))
          | .matched => .inr (i + ts.length)
      else .inr i
    match afterPrefix with
    | .inl r => r
    | .inr i =>
      match wildcardDescend szs buf fnFuel n search i 42 lb list with
      | none => none
      | some (.error e) => some (.error e)
      | some (.ok (lb, list)) =>
        match wildcardDescend szs buf fnFuel n search i 63 lb list with
        | none => none
        | some (.error e) => some (.error e)
        | some (.ok (lb, list)) =>
          match wildcardDescend szs buf fnFuel n search i 91 lb list with
          | none => none
          | some (.error e) => some (.error e)
          | some (.ok (lb, list)) =>
            let listE :=
              if search.get? i == some 0 then emitValues buf n.values list
              else .ok list
            match listE with
            | .error e => some (.error e)
            | .ok list =>
              let node := lookup_child szs n buf (search.getD i 0)
              trie_search_loop szs buf search fnFuel fuel node (i + 1) lb list

/-- `UdevHwdb::trie_search` (src/hwdb.rs lines 285-346): decode the root
node at the header offset (out-of-range or failing decodes leave the loop
with no node) and run the walk with an empty line buffer and position 0
over the cleared properties list. -/
def trie_search (szs : TrieSizes) (head : TrieHeader) (buf search : List Nat)
    (fuel : Nat) : Option (Except UdevError (List UdevEntry)) :=
  let root :=
    if head.nodes_root_off < buf.length then
      (trieEntryTryFrom szs (buf.drop head.nodes_root_off)).toOption
    else none
  trie_search_loop szs buf search fuel fuel root 0 [] []

/-- `UdevHwdb::new` followed by `UdevHwdb::query` /
`get_properties_list_entry` on the same file contents `buf`: parse the
header, record the entry sizes, clear the properties list, run the trie
search, and return the properties list when its first entry exists.  Inner
`none` is the `None` result of `query`; the outer `none` means the fuel ran
out. -/
def hwdbQuery (buf search : List Nat) (fuel : Nat) :
    Option (Option (List UdevEntry)) :=
  match trieHeaderTryFrom buf with
  | .error _ => some none
  | .ok head =>
    let szs : TrieSizes :=
      { node_size := head.node_size
        child_entry_size := head.child_entry_size
        value_entry_size := head.value_entry_size }
    match trie_search szs head buf search fuel with
    | none => none
    | some (.error _) => some none
    | some (.ok list) => some (if list.isEmpty then none else some list)

/-! ## Concrete hwdb images

`c1Buf` is a well-formed hwdb image for a source containing exactly the
entry `usb:v1D6B*` with property `ID_VENDOR_FROM_DATABASE=Linux
Foundation`: 80-byte header (node size 24, child entry size 16, value
entry size 16, root offset 80), a root node with prefix `usb:v1D6B` and
one child labelled `*`, that child holding one value whose key is
` ID_VENDOR_FROM_DATABASE` (keys carry the leading-space convention on
disk) and whose value is `Linux Foundation`, then the strings section. -/
def c1Buf : List Nat := [
  75, 83, 76, 80, 72, 72, 82, 72, 1, 0, 0, 0, 0, 0, 0, 0,
  213, 0, 0, 0, 0, 0, 0, 0, 80, 0, 0, 0, 0, 0, 0, 0,
  24, 0, 0, 0, 0, 0, 0, 0, 16, 0, 0, 0, 0, 0, 0, 0,
  16, 0, 0, 0, 0, 0, 0, 0, 80, 0, 0, 0, 0, 0, 0, 0,
  80, 0, 0, 0, 0, 0, 0, 0, 53, 0, 0, 0, 0, 0, 0, 0,
  160, 0, 0, 0, 0, 0, 0, 0, 1, 0, 0, 0, 0, 0, 0, 0,
  0, 0, 0, 0, 0, 0, 0, 0, 42, 0, 0, 0, 0, 0, 0, 0,
  120, 0, 0, 0, 0, 0, 0, 0, 170, 0, 0, 0, 0, 0, 0, 0,
  0, 0, 0, 0, 0, 0, 0, 0, 1, 0, 0, 0, 0, 0, 0, 0,
  171, 0, 0, 0, 0, 0, 0, 0, 196, 0, 0, 0, 0, 0, 0, 0,
  117, 115, 98, 58, 118, 49, 68, 54, 66, 0, 0, 32, 73, 68, 95, 86,
  69, 78, 68, 79, 82, 95, 70, 82, 79, 77, 95, 68, 65, 84, 65, 66,
  65, 83, 69, 0, 76, 105, 110, 117, 120, 32, 70, 111, 117, 110, 100, 97,
  116, 105, 111, 110, 0]

/-- A well-formed hwdb image for a source containing exactly the entry
`usb:v1D6B` (no trailing wildcard) with property
`ID_VENDOR_FROM_DATABASE=Linux Foundation`: the root node has prefix
`usb:v1D6B`, no children, and carries the single value itself. -/
def c2Buf : List Nat := [
  75, 83, 76, 80, 72, 72, 82, 72, 1, 0, 0, 0, 0, 0, 0, 0,
  172, 0, 0, 0, 0, 0, 0, 0, 80, 0, 0, 0, 0, 0, 0, 0,
  24, 0, 0, 0, 0, 0, 0, 0, 16, 0, 0, 0, 0, 0, 0, 0,
  16, 0, 0, 0, 0, 0, 0, 0, 80, 0, 0, 0, 0, 0, 0, 0,
  40, 0, 0, 0, 0, 0, 0, 0, 52, 0, 0, 0, 0, 0, 0, 0,
  120, 0, 0, 0, 0, 0, 0, 0, 0, 0, 0, 0, 0, 0, 0, 0,
  1, 0, 0, 0, 0, 0, 0, 0, 130, 0, 0, 0, 0, 0, 0, 0,
  155, 0, 0, 0, 0, 0, 0, 0, 117, 115, 98, 58, 118, 49, 68, 54,
  66, 0, 32, 73, 68, 95, 86, 69, 78, 68, 79, 82, 95, 70, 82, 79,
  77, 95, 68, 65, 84, 65, 66, 65, 83, 69, 0, 76, 105, 110, 117, 120,
  32, 70, 111, 117, 110, 100, 97, 116, 105, 111, 110, 0]

/-- Decidable equality for `Except` results, used to evaluate the
embedded parsers on concrete buffers. -/
instance exceptDecEq {ε α : Type} [DecidableEq ε] [DecidableEq α] :
    DecidableEq (Except ε α) := fun a b =>
  match a, b with
  | .ok x, .ok y =>
    if h : x = y then .isTrue (by rw [h]) else .isFalse (by simp [h])
  | .error x, .error y =>
    if h : x = y then .isTrue (by rw [h]) else .isFalse (by simp [h])
  | .ok _, .error _ => .isFalse (by simp)
  | .error _, .ok _ => .isFalse (by simp)

/-- The modalias `usb:v1D6B` as bytes. -/
def modaliasUsbV1D6B : List Nat := [117, 115, 98, 58, 118, 49, 68, 54, 66]

/-- The property name `ID_VENDOR_FROM_DATABASE` as bytes. -/
def idVendorFromDatabase : List Nat :=
  [73, 68, 95, 86, 69, 78, 68, 79, 82, 95, 70, 82, 79, 77, 95, 68,
   65, 84, 65, 66, 65, 83, 69]

/-- The property value `Linux Foundation` as bytes. -/
def linuxFoundation : List Nat :=
  [76, 105, 110, 117, 120, 32, 70, 111, 117, 110, 100, 97, 116, 105,
   111, 110]

/-! ## Supporting lemmas -/

/-- Updating the value of the first entry named `n` leaves the name
sequence unchanged. -/
theorem map_name_set_first_value (n v : List Nat) :
    ∀ l : List UdevEntry,
      (set_first_value l n v).map UdevEntry.name = l.map UdevEntry.name
  | [] => rfl
  | e :: rest => by
    by_cases h : e.name == n
    · simp [set_first_value, h]
    · simp [set_first_value, h, map_name_set_first_value n v rest]

/-- Removing an entry keeps the name sequence a sublist of the original. -/
theorem remove_entry_names_sublist (n : List Nat) :
    ∀ l : List UdevEntry,
      List.Sublist ((remove_entry l n).map UdevEntry.name)
        (l.map UdevEntry.name)
  | [] => List.Sublist.refl _
  | e :: rest => by
    by_cases h : e.name == n
    · simp [remove_entry, h]
    · simpa [remove_entry, h] using (remove_entry_names_sublist n rest).cons₂ e.name

/-- `add_entry` in unique mode preserves name uniqueness. -/
theorem uniqueNames_add_entry (l : List UdevEntry) (n v : List Nat)
    (h : uniqueNames l) : uniqueNames (add_entry true l n v) := by
  unfold add_entry
  by_cases hf : (entry_by_name l n).isSome
  · simpa [hf, uniqueNames, map_name_set_first_value] using h
  · have hn : n ∉ l.map UdevEntry.name := by
      intro hmem
      rcases List.mem_map.mp hmem with ⟨e, he, hname⟩
      have hnone : entry_by_name l n = none := Option.not_isSome_iff_eq_none.mp hf
      have := List.find?_eq_none.mp hnone e he
      simp [hname] at this
    have happ : uniqueNames (l ++ [{ name := n, value := v, num := 0 }]) := by
      unfold uniqueNames
      rw [List.map_append]
      refine List.Nodup.append h (by simp) ?_
      intro a ha ha2
      simp at ha2
      exact hn (ha2 ▸ ha)
    simpa [hf] using happ

/-- `remove_entry` preserves name uniqueness. -/
theorem uniqueNames_remove_entry (l : List UdevEntry) (n : List Nat)
    (h : uniqueNames l) : uniqueNames (remove_entry l n) :=
  h.sublist (remove_entry_names_sublist n l)

/-- Any sequence of `add_entry`, `remove_entry` and `clear` operations on a
unique list preserves name uniqueness. -/
theorem uniqueNames_runListOps :
    ∀ (ops : List ListOp) (st : List UdevEntry), uniqueNames st →
      noSetList ops = true → uniqueNames (runListOps true st ops)
  | [], _, h, _ => h
  | op :: rest, st, h, hns => by
    have hstep : runListOps true st (op :: rest) =
        runListOps true (applyListOp true st op) rest := rfl
    rw [hstep]
    cases op with
    | add n v =>
      have hrest : noSetList rest = true := by
        simpa [noSetList, ListOp.isSetList] using hns
      exact uniqueNames_runListOps rest _ (uniqueNames_add_entry st n v h) hrest
    | remove n =>
      have hrest : noSetList rest = true := by
        simpa [noSetList, ListOp.isSetList] using hns
      exact uniqueNames_runListOps rest _ (uniqueNames_remove_entry st n h) hrest
    | clear =>
      have hrest : noSetList rest = true := by
        simpa [noSetList, ListOp.isSetList] using hns
      exact uniqueNames_runListOps rest _ (by simp [uniqueNames, applyListOp]) hrest
    | setList l => simp [noSetList, ListOp.isSetList] at hns

/-- Two unique-mode insertions under the same name from the empty list
leave exactly the one entry with the second value. -/
theorem runListOps_add_add (k v1 v2 : List Nat) :
    runListOps true [] [.add k v1, .add k v2] =
      [{ name := k, value := v2, num := 0 }] := by
  simp [runListOps, applyListOp, add_entry, entry_by_name, set_first_value,
    List.find?]

/-! ## Claim theorems -/

/-- C1: for a hardware database validly built from a source containing the
entry `usb:v1D6B*` with property `ID_VENDOR_FROM_DATABASE=Linux Foundation`
(the image `c1Buf`), `query("usb:v1D6B")` yields a properties list
containing an entry named `ID_VENDOR_FROM_DATABASE` with value
`Linux Foundation` - here the result is exactly that one-entry list. -/
theorem hwdb_query_vendor_contains_entry :
    hwdbQuery c1Buf modaliasUsbV1D6B 100 =
      some (some [{ name := idVendorFromDatabase, value := linuxFoundation,
                    num := 0 }]) := by
  decide

/-- C2: values are not emitted when the walk position reaches the end of
the search string: the emission guard compares against a literal NUL
character, which a Rust string never yields at its end.  On the image
`c2Buf` - whose root node matches the whole modalias exactly and carries
the `( ID_VENDOR_FROM_DATABASE, Linux Foundation)` value, as the decoded
root entry and string reads below show - the query returns no properties;
appending an explicit NUL sentinel to the same search string makes the
same walk emit them, exhibiting the C string-terminator idiom the port
kept. -/
theorem hwdb_query_end_of_string_never_emits :
    hwdbQuery c2Buf modaliasUsbV1D6B 100 = some none ∧
    trieEntryTryFrom
        { node_size := 24, child_entry_size := 16, value_entry_size := 16 }
        (c2Buf.drop 80) =
      .ok { node := { prefix_off := 120, children_count := 0, values_count := 1 },
            children := [], values := [{ key_off := 130, value_off := 155 }] } ∧
    trie_string c2Buf 130 = .ok (32 :: idVendorFromDatabase) ∧
    trie_string c2Buf 155 = .ok linuxFoundation ∧
    hwdbQuery c2Buf (modaliasUsbV1D6B ++ [0]) 100 =
      some (some [{ name := idVendorFromDatabase, value := linuxFoundation,
                    num := 0 }]) := by
  decide

/-- C3 counterexample: with both subsystem filter lists empty and a device
whose subsystem is the empty string, the claimed equivalence fails - its
right-hand side holds while `match_subsystem` rejects, because the code
additionally requires a non-empty subsystem. -/
theorem match_subsystem_claim_false_on_empty_subsystem :
    ¬ (match_subsystem [] [] [] = true ↔
        (([] : List Nat) ∉ ([] : List UdevEntry).map UdevEntry.name ∧
          (([] : List UdevEntry) = [] ∨
            ([] : List Nat) ∈ ([] : List UdevEntry).map UdevEntry.name))) := by
  decide

/-- C3 amended: for all subsystem no-match and match lists and every
device, the matcher accepts exactly when the device subsystem is
non-empty, is not in the no-match list, and the match list is empty or
holds the subsystem. -/
theorem match_subsystem_characterization (nomatchList mtch : List UdevEntry)
    (subsystem : List Nat) :
    match_subsystem nomatchList mtch subsystem = true ↔
      (subsystem ≠ [] ∧ subsystem ∉ nomatchList.map UdevEntry.name ∧
        (mtch = [] ∨ subsystem ∈ mtch.map UdevEntry.name)) := by
  simp [match_subsystem, List.any_eq_true, List.isEmpty_iff, List.mem_map,
    beq_iff_eq, not_exists, and_assoc]

/-- C4 counterexample: in unique mode, a `set_list` operation installs the
caller-supplied list verbatim, so after the single operation
`set_list [(k, v1), (k, v2)]` two entries share the name `k` and the
claimed invariant fails. -/
theorem unique_list_set_list_breaks_uniqueness :
    ¬ uniqueNames (runListOps true []
      [.setList [{ name := [107], value := [49], num := 0 },
                 { name := [107], value := [50], num := 0 }]]) := by
  decide

/-- C4 amended: for every unique-mode entry list, any sequence of
`add_entry`, `remove_entry` and `clear` operations (`set_list` excluded -
it installs the given list verbatim and can introduce duplicates)
preserves the no-two-entries-share-a-name invariant; and from the empty
list, `add_entry(k, v1)` followed by `add_entry(k, v2)` leaves exactly one
entry, named `k` with value `v2`. -/
theorem unique_list_ops_characterization :
    (∀ (st : List UdevEntry) (ops : List ListOp), uniqueNames st →
        noSetList ops = true → uniqueNames (runListOps true st ops)) ∧
    (∀ k v1 v2 : List Nat, runListOps true [] [.add k v1, .add k v2] =
        [{ name := k, value := v2, num := 0 }]) :=
  ⟨fun st ops h hns => uniqueNames_runListOps ops st h hns,
   runListOps_add_add⟩

/-- C4 witness: the amended claim at concrete inputs - a mixed
add/add/remove/clear sequence keeps names unique, and the add/add pair
leaves the single updated entry. -/
theorem unique_list_ops_characterization_witness :
    uniqueNames (runListOps true [{ name := [97], value := [], num := 0 }]
      [.add [107] [49], .add [107] [50], .remove [97], .clear]) ∧
    runListOps true [] [.add [107] [49], .add [107] [50]] =
      [{ name := [107], value := [50], num := 0 }] :=
  ⟨unique_list_ops_characterization.1 _ _ (by decide) (by decide),
   unique_list_ops_characterization.2 [107] [49] [50]⟩

/-- C5: `murmur_hash2` multiplies with `u32::saturating_mul` where the
reference MurmurHash2 wraps modulo `2^32` (and the source runs the
post-tail multiply unconditionally, where the reference multiplies only
inside the tail `switch`): already on the one-byte input `a` with seed 0,
and likewise on a single full 4-byte chunk, the source function and the
reference disagree; `string_hash32` is murmur with seed 0 by definition. -/
theorem murmur_hash2_diverges_from_reference :
    murmur_hash2 [97] 0 ≠ murmurHash2Reference [97] 0 ∧
    murmur_hash2 [97, 98, 99, 100] 0 ≠
      murmurHash2Reference [97, 98, 99, 100] 0 ∧
    string_hash32 [97] = murmur_hash2 [97] 0 := by
  decide

/-- C6: for the non-empty tag filter list containing the tag `a`, the
synthesized tag block loads the bloom high word (instruction 3, offset 32)
but then ANDs the accumulator with the constant 32 - again the byte offset
of the bloom-high field - instead of `bloom_hi("a")` (instruction 4), and
`bloom_hi("a")` differs from 32; the comparison against `bloom_hi`
(instruction 5), the low-word instructions and the trailing DROP
(instruction 9) have the claimed shape. -/
theorem filter_update_and_hi_uses_offset_constant :
    (filterProgram (filter_update [] [[97]])).get? 3 =
      some { code := BPF_LD_W_ABS, jt := 0, jf := 0, k := 32 } ∧
    (filterProgram (filter_update [] [[97]])).get? 4 =
      some { code := BPF_ALU_AND_K, jt := 0, jf := 0, k := 32 } ∧
    string_bloom64 [97] >>> 32 ≠ 32 ∧
    (filterProgram (filter_update [] [[97]])).get? 5 =
      some { code := BPF_JMP_JEQ_K, jt := 0, jf := 3,
             k := string_bloom64 [97] >>> 32 } ∧
    (filterProgram (filter_update [] [[97]])).get? 6 =
      some { code := BPF_LD_W_ABS, jt := 0, jf := 0, k := 36 } ∧
    (filterProgram (filter_update [] [[97]])).get? 7 =
      some { code := BPF_ALU_AND_K, jt := 0, jf := 0,
             k := string_bloom64 [97] % 2 ^ 32 } ∧
    (filterProgram (filter_update [] [[97]])).get? 9 =
      some { code := BPF_RET_K, jt := 0, jf := 0, k := 0 } := by
  decide

/-- C7: `UDEV_MONITOR_MAGIC` is built with `from_le_bytes` over the bytes
`fe ed ca fe` and therefore evaluates to `0xfecaedfe`, not the claimed
(and libudev-prescribed) `0xfeedcafe`; the freshly constructed header
stores the constant byte-swapped (`to_be` on the little-endian targets),
so the header field big-endian-encodes the wrong constant. -/
theorem udev_monitor_magic_mismatch :
    UDEV_MONITOR_MAGIC = 0xfecaedfe ∧
    UDEV_MONITOR_MAGIC ≠ 0xfeedcafe ∧
    UdevMonitorNetlinkHeader.new.magic = byteSwap32 UDEV_MONITOR_MAGIC := by
  decide

/-- C8 counterexample: with tag filter list `[t1, t2]` and a device
carrying only tag `t1`, `UdevList::has_tag` accepts although not every
filter entry is among the device's tags, so the claimed every-entry
equivalence fails for the monitor-side filter. -/
theorem has_tag_claim_false_on_partial_tags :
    ¬ (udevlist_has_tag
        [{ name := [116, 49], value := [], num := 0 },
         { name := [116, 50], value := [], num := 0 }]
        [{ name := [116, 49], value := [], num := 0 }] = true ↔
      ([{ name := [116, 49], value := [], num := 0 },
        { name := [116, 50], value := [], num := 0 }] = ([] : List UdevEntry) ∨
        ∀ e ∈ [({ name := [116, 49], value := [], num := 0 } : UdevEntry),
               { name := [116, 50], value := [], num := 0 }],
          device_has_tag [{ name := [116, 49], value := [], num := 0 }]
            e.name = true)) := by
  decide

/-- C8 amended: for every tag filter list and device, the enumerator
matcher `match_tag` accepts exactly when the list is empty or every entry
is among the device's tags, while the monitor-side `UdevList::has_tag`
accepts exactly when the list is empty or at least one entry is among the
device's tags. -/
theorem tag_matcher_characterization (F D : List UdevEntry) :
    (match_tag F D = true ↔
      F = [] ∨ ∀ f ∈ F, device_has_tag D f.name = true) ∧
    (udevlist_has_tag F D = true ↔
      F = [] ∨ ∃ e ∈ F, device_has_tag D e.name = true) := by
  constructor
  · simp [match_tag, List.isEmpty_iff, List.length_eq_zero,
      List.filter_eq_nil_iff]
  · rcases eq_or_ne F [] with hF | hF
    · simp [hF, udevlist_has_tag]
    · simp [udevlist_has_tag, List.isEmpty_iff, hF, List.length_eq_zero,
        List.filter_eq_nil_iff, not_forall, device_has_tag,
        Option.isSome_iff_ne_none]

/-- C9: decoding a trie node whose `values_count` field exceeds 64 yields
`Error::InvalidLen(values_count)` - from `TrieNode::try_from`, and by
propagation from `TrieEntry::try_from` (the decoder used by the reader and
the query engine) - even though the on-disk format declares the field as
an unrestricted 64-bit integer; a node with more than 64 values can never
be parsed. -/
theorem trie_node_values_count_rejected (szs : TrieSizes) (val : List Nat)
    (h1 : 24 ≤ val.length) (h2 : 64 < leU64 ((val.drop 16).take 8)) :
    trieNodeTryFrom val =
      .error (.invalidLen (leU64 ((val.drop 16).take 8))) ∧
    trieEntryTryFrom szs val =
      .error (.invalidLen (leU64 ((val.drop 16).take 8))) := by
  have hn : trieNodeTryFrom val =
      .error (.invalidLen (leU64 ((val.drop 16).take 8))) := by
    simp only [trieNodeTryFrom]
    rw [if_neg (by omega), if_pos h2]
  refine ⟨hn, ?_⟩
  simp only [trieEntryTryFrom, hn]
  rfl

/-- C9 witness: a 24-byte node record declaring 65 values is rejected with
`InvalidLen 65` by both decoders. -/
theorem trie_node_values_count_rejected_witness :
    trieNodeTryFrom (List.replicate 16 0 ++ 65 :: List.replicate 7 0) =
      .error (.invalidLen 65) ∧
    trieEntryTryFrom
        { node_size := 24, child_entry_size := 16, value_entry_size := 16 }
        (List.replicate 16 0 ++ 65 :: List.replicate 7 0) =
      .error (.invalidLen 65) := by
  have h := trie_node_values_count_rejected
    { node_size := 24, child_entry_size := 16, value_entry_size := 16 }
    (List.replicate 16 0 ++ 65 :: List.replicate 7 0) (by decide) (by decide)
  have hv : leU64 ((((List.replicate 16 0 ++ 65 :: List.replicate 7 0) :
      List Nat).drop 16).take 8) = 65 := by decide
  rw [hv] at h
  exact h

/-- C10: a device whose `id_filename` field is already non-empty gets the
empty string back from `get_id_filename`, with the stored field untouched;
conversely a non-empty result arises only on a call that found the field
empty and stored exactly what it returns - so the stored `id_filename` is
returned only by the call that first computes it. -/
theorem get_id_filename_nonempty_returns_empty :
    (∀ d : UdevDevice, d.id_filename ≠ [] → get_id_filename d = ([], d)) ∧
    (∀ d : UdevDevice, (get_id_filename d).1 ≠ [] →
      d.id_filename = [] ∧
        (get_id_filename d).2.id_filename = (get_id_filename d).1) := by
  constructor
  · intro d h
    have he : d.id_filename.isEmpty = false := by
      cases hd : d.id_filename
      · exact absurd hd h
      · rfl
    simp [get_id_filename, he]
  · intro d h
    by_cases he : d.id_filename.isEmpty = true
    · have hid : d.id_filename = [] := by
        cases hd : d.id_filename
        · rfl
        · rw [hd] at he; simp at he
      refine ⟨hid, ?_⟩
      by_cases hc : (compute_id_filename d).isEmpty = true
      · exact absurd (by simp [get_id_filename, he, hc]) h
      · have hc2 : (compute_id_filename d).isEmpty = false :=
          Bool.not_eq_true _ ▸ hc
        simp [get_id_filename, he, hc2]
    · have he2 : d.id_filename.isEmpty = false := Bool.not_eq_true _ ▸ he
      exact absurd (by simp [get_id_filename, he2]) h

/-- C10 witness: a device with `id_filename` already set gets the empty
string and an unchanged device back. -/
theorem get_id_filename_nonempty_returns_empty_witness :
    get_id_filename
      { devpath := [], subsystem := [], devnum := 0, ifindex := 0,
        id_filename := [120] } =
      ([], { devpath := [], subsystem := [], devnum := 0, ifindex := 0,
             id_filename := [120] }) :=
  get_id_filename_nonempty_returns_empty.1 _ (by decide)

end Udevrs
